import Mathlib

/-!
Shallow embedding of `demos/interactive_face_detection_demo/cpp/detectors.cpp`.

Conventions of the embedding:
* C++ `float`/`double` values are modelled as exact rationals (`ℚ`);
* C++ `int` is modelled as `ℤ`; `static_cast<int>` applied to a floating
  value truncates toward zero (`ratTrunc`), `std::floor` is `⌊⌋`;
* raw tensor memory owned by the inference backend is modelled as a
  `List ℚ` of the values the backend wrote, and a raw-pointer read is
  `readF`, which yields `none` exactly when the accessed offset lies
  outside the allocation (an out-of-bounds access in the C++ source);
* the opaque inference backend is not re-implemented: each stage records
  the calls it makes into it as a `List BackendCall` trace;
* wall-clock time (`std::chrono::steady_clock::now()`) is passed to each
  timing operation as an explicit rational argument.
-/

/-- `static_cast<int>` on a floating value: truncation toward zero. -/
def ratTrunc (q : ℚ) : ℤ :=
  q.num.tdiv (q.den : ℤ)

/-- A raw read of backend tensor memory at a (possibly negative) offset.
`none` models an access outside the allocation. -/
def readF (blob : List ℚ) (i : ℤ) : Option ℚ :=
  if 0 ≤ i then blob.get? i.toNat else none

/-- `cv::Rect` with integer fields, as used by `FaceDetection::Result`. -/
structure Rect where
  x : ℤ
  y : ℤ
  width : ℤ
  height : ℤ
deriving DecidableEq, Repr

/-- `FaceDetection::Result`: label, confidence and pixel bounding box. -/
structure Result where
  label : ℤ
  confidence : ℚ
  location : Rect
deriving DecidableEq, Repr

/-- The square-and-enlarge block of `FaceDetection::fetchResults`
(the identical code appears in both output-format branches):
center from integer division, new size `static_cast<int>(e * max)`,
origin shifted by `static_cast<int>(std::floor(coeff * newSize / 2))`. -/
def squareEnlarge (e dx dy : ℚ) (x y w h : ℤ) : Rect :=
  let bb_center_x := x + w.tdiv 2
  let bb_center_y := y + h.tdiv 2
  let max_of_sizes := max w h
  let bb_new_width := ratTrunc (e * (max_of_sizes : ℚ))
  let bb_new_height := ratTrunc (e * (max_of_sizes : ℚ))
  { x := bb_center_x - ⌊dx * (bb_new_width : ℚ) / 2⌋
    y := bb_center_y - ⌊dy * (bb_new_height : ℚ) / 2⌋
    width := bb_new_width
    height := bb_new_height }

/-- The configuration and shape fields of `FaceDetection` that
`fetchResults` reads. -/
structure FaceCfg where
  detectionThreshold : ℚ
  doRawOutputMessages : Bool
  width : ℚ
  height : ℚ
  network_input_width : ℚ
  network_input_height : ℚ
  bb_enlarge_coefficient : ℚ
  bb_dx_coefficient : ℚ
  bb_dy_coefficient : ℚ
  objectSize : ℤ
  labelsOutputEmpty : Bool
deriving DecidableEq, Repr

/-- One 7-wide row of the single-tensor detection output:
`(image_id, label, conf, x0, y0, x1, y1)`, coordinates normalized. -/
structure Row7 where
  imageId : ℚ
  label : ℚ
  conf : ℚ
  x0 : ℚ
  y0 : ℚ
  x1 : ℚ
  y1 : ℚ
deriving DecidableEq, Repr

/-- One 5-wide row of the `boxes` tensor: four corner coordinates in
network-input pixels, then the confidence at offset 4. -/
structure Row5 where
  x0 : ℚ
  y0 : ℚ
  x1 : ℚ
  y1 : ℚ
  conf : ℚ
deriving DecidableEq, Repr

/-- Decoding of one above-threshold 7-wide row: denormalize by frame size,
then square-and-enlarge. -/
def decodeRow7 (cfg : FaceCfg) (row : Row7) : Result :=
  let x := ratTrunc (row.x0 * cfg.width)
  let y := ratTrunc (row.y0 * cfg.height)
  let w := ratTrunc (row.x1 * cfg.width - (x : ℚ))
  let h := ratTrunc (row.y1 * cfg.height - (y : ℚ))
  { label := ratTrunc row.label
    confidence := row.conf
    location := squareEnlarge cfg.bb_enlarge_coefficient cfg.bb_dx_coefficient
      cfg.bb_dy_coefficient x y w h }

/-- Decoding of one above-threshold 5-wide row: divide by network input
size, scale by frame size, then square-and-enlarge. -/
def decodeRow5 (cfg : FaceCfg) (lab : ℤ) (row : Row5) : Result :=
  let x := ratTrunc (row.x0 / cfg.network_input_width * cfg.width)
  let y := ratTrunc (row.y0 / cfg.network_input_height * cfg.height)
  let w := ratTrunc (row.x1 / cfg.network_input_width * cfg.width - (x : ℚ))
  let h := ratTrunc (row.y1 / cfg.network_input_height * cfg.height - (y : ℚ))
  { label := lab
    confidence := row.conf
    location := squareEnlarge cfg.bb_enlarge_coefficient cfg.bb_dx_coefficient
      cfg.bb_dy_coefficient x y w h }

/-- The 7-wide loop of `FaceDetection::fetchResults`: stop at a negative
`image_id`, skip a sub-threshold row unless raw output is on (logging
only), and push the decoded result exactly when `confidence > threshold`. -/
def fetchLoop7 (cfg : FaceCfg) : List Row7 → List Result
  | [] => []
  | row :: rest =>
    if row.imageId < 0 then []
    else if row.conf ≤ cfg.detectionThreshold ∧ cfg.doRawOutputMessages = false then
      fetchLoop7 cfg rest
    else
      (if cfg.detectionThreshold < row.conf then [decodeRow7 cfg row] else [])
        ++ fetchLoop7 cfg rest

/-- The boxes-plus-labels loop of `FaceDetection::fetchResults`: same
filtering, rows paired with the `int32` labels tensor. -/
def fetchLoop5 (cfg : FaceCfg) : List (Row5 × ℤ) → List Result
  | [] => []
  | (row, lab) :: rest =>
    if row.conf ≤ cfg.detectionThreshold ∧ cfg.doRawOutputMessages = false then
      fetchLoop5 cfg rest
    else
      (if cfg.detectionThreshold < row.conf then [decodeRow5 cfg lab row] else [])
        ++ fetchLoop5 cfg rest

lemma ratTrunc_eq_floor (q : ℚ) (h : 0 ≤ q) : ratTrunc q = ⌊q⌋ := by
  rw [ratTrunc, Rat.floor_def]
  exact Int.tdiv_eq_ediv (Rat.num_nonneg.mpr h) (by positivity)

/-- One call a stage makes into the opaque inference backend. -/
inductive BackendCall where
  | loadNetwork
  | createRequest
  | getBlob
  | setBatch (n : ℤ)
  | startAsync
  | infer
  | waitResult
deriving DecidableEq, Repr

/-- The state of one secondary stage (`AgeGenderDetection`,
`HeadPoseDetection`, `EmotionsDetection`, `FacialLandmarksDetection`,
`AntispoofingClassifier` share this control flow verbatim). `hasRequest`
models whether the `InferRequest` shared pointer is non-null. -/
structure SecondaryStage where
  pathToModel : String
  maxBatch : ℤ
  isBatchDynamic : Bool
  isAsync : Bool
  enablingChecked : Bool
  _enabled : Bool
  hasRequest : Bool
  enquedFaces : ℤ
deriving DecidableEq, Repr

/-- The `BaseDetection` constructor: `enablingChecked(false)`,
`_enabled(false)`, no request yet, nothing enqueued. -/
def mkSecondary (pathToModel : String) (maxBatch : ℤ)
    (isBatchDynamic isAsync : Bool) : SecondaryStage :=
  { pathToModel, maxBatch, isBatchDynamic, isAsync,
    enablingChecked := false, _enabled := false,
    hasRequest := false, enquedFaces := 0 }

/-- `BaseDetection::enabled()`: lazily computes and caches
`!pathToModel.empty()` on first call (a mutating query). -/
def SecondaryStage.checkEnabled (s : SecondaryStage) : Bool × SecondaryStage :=
  if s.enablingChecked then (s._enabled, s)
  else
    let e := decide (s.pathToModel ≠ "")
    (e, { s with _enabled := e, enablingChecked := true })

/-- Secondary-stage `enqueue`: no-op when disabled; a warning-only no-op
when `enquedFaces == maxBatch`; otherwise creates the request if missing,
copies the face into the next batch slot and increments the counter. -/
def SecondaryStage.enqueue (s : SecondaryStage) : SecondaryStage × List BackendCall :=
  let ec := s.checkEnabled
  if ec.1 = false then (ec.2, [])
  else if ec.2.enquedFaces = ec.2.maxBatch then (ec.2, [])
  else if ec.2.hasRequest then
    ({ ec.2 with enquedFaces := ec.2.enquedFaces + 1 }, [BackendCall.getBlob])
  else
    ({ ec.2 with hasRequest := true, enquedFaces := ec.2.enquedFaces + 1 },
      [BackendCall.createRequest, BackendCall.getBlob])

/-- Secondary-stage `submitRequest`: no-op when nothing is enqueued, else
`SetBatch` under dynamic batching, then `BaseDetection::submitRequest`
(guarded by `enabled()` and a non-null request), then reset the counter. -/
def SecondaryStage.submitRequest (s : SecondaryStage) : SecondaryStage × List BackendCall :=
  if s.enquedFaces = 0 then (s, [])
  else
    let batchCalls := if s.isBatchDynamic then [BackendCall.setBatch s.enquedFaces] else []
    let ec := s.checkEnabled
    let runCalls :=
      if ec.1 = true ∧ ec.2.hasRequest = true then
        [if s.isAsync then BackendCall.startAsync else BackendCall.infer]
      else []
    ({ ec.2 with enquedFaces := 0 }, batchCalls ++ runCalls)

/-- `BaseDetection::wait()`: returns unless enabled, request non-null and
asynchronous. -/
def SecondaryStage.waitDone (s : SecondaryStage) : SecondaryStage × List BackendCall :=
  let ec := s.checkEnabled
  if ec.1 = false ∨ ec.2.hasRequest = false ∨ ec.2.isAsync = false then (ec.2, [])
  else (ec.2, [BackendCall.waitResult])

/-- `Load::into`: reads and loads the network only when the stage is
enabled; the stage's `read()` then sets `_enabled = true`. -/
def SecondaryStage.loadInto (s : SecondaryStage) : SecondaryStage × List BackendCall :=
  let ec := s.checkEnabled
  if ec.1 = false then (ec.2, [])
  else ({ ec.2 with _enabled := true }, [BackendCall.loadNetwork])

/-- What a secondary stage's `operator[]` does before any tensor value is
produced: it dereferences `request` with no `enabled()` or bounds guard,
so a null request is a fault, and otherwise the read begins with
`request->GetBlob`. -/
inductive DecodeOutcome where
  | nullRequestFault
  | reads (calls : List BackendCall)
deriving DecidableEq, Repr

/-- The access pattern of a secondary stage's `operator[]`. -/
def SecondaryStage.decodeAccess (s : SecondaryStage) : DecodeOutcome :=
  if s.hasRequest then DecodeOutcome.reads [BackendCall.getBlob]
  else DecodeOutcome.nullRequestFault

/-- The externally drivable operations of a secondary stage. -/
inductive StageOp where
  | loadOp
  | enqueueOp
  | submitOp
  | waitOp
deriving DecidableEq, Repr

/-- Dispatch one operation. -/
def SecondaryStage.applyOp (s : SecondaryStage) : StageOp → SecondaryStage × List BackendCall
  | StageOp.loadOp => s.loadInto
  | StageOp.enqueueOp => s.enqueue
  | StageOp.submitOp => s.submitRequest
  | StageOp.waitOp => s.waitDone

/-- Run a sequence of operations, concatenating the backend-call traces. -/
def SecondaryStage.runOps (s : SecondaryStage) : List StageOp → SecondaryStage × List BackendCall
  | [] => (s, [])
  | op :: ops =>
    let r1 := s.applyOp op
    let r2 := r1.1.runOps ops
    (r2.1, r1.2 ++ r2.2)

/-- The mutable state of `FaceDetection` that `submitRequest` and
`fetchResults` touch. -/
structure FaceState where
  pathToModel : String
  isAsync : Bool
  enablingChecked : Bool
  _enabled : Bool
  hasRequest : Bool
  enquedFrames : ℤ
  resultsFetched : Bool
  results : List Result
deriving DecidableEq, Repr

/-- `BaseDetection::enabled()` for the primary detector. -/
def FaceState.checkEnabled (s : FaceState) : Bool × FaceState :=
  if s.enablingChecked then (s._enabled, s)
  else
    let e := decide (s.pathToModel ≠ "")
    (e, { s with _enabled := e, enablingChecked := true })

/-- `FaceDetection::submitRequest`: no-op with no frame enqueued; else
clear the fetched flag and the results, then run the base submit. -/
def FaceState.submitRequest (s : FaceState) : FaceState × List BackendCall :=
  if s.enquedFrames = 0 then (s, [])
  else
    let s1 := { s with enquedFrames := 0, resultsFetched := false, results := [] }
    let ec := s1.checkEnabled
    if ec.1 = true ∧ ec.2.hasRequest = true then
      (ec.2, [if s.isAsync then BackendCall.startAsync else BackendCall.infer])
    else (ec.2, [])

/-- `FaceDetection::fetchResults`. The tensor contents the request holds
are passed in as already-read rows (`rows5` paired with the labels
tensor, `rows7` for the single-tensor format); which loop runs is the
source's conditions on `labels_output` and `objectSize`. -/
def FaceState.fetchResults (cfg : FaceCfg) (rows5 : List (Row5 × ℤ))
    (rows7 : List Row7) (s : FaceState) : FaceState :=
  let ec := s.checkEnabled
  if ec.1 = false then ec.2
  else
    let s1 := { ec.2 with results := [] }
    if s1.resultsFetched then s1
    else
      { s1 with
        resultsFetched := true
        results :=
          (if cfg.labelsOutputEmpty = false ∧ cfg.objectSize = 5 then fetchLoop5 cfg rows5 else [])
            ++ (if cfg.objectSize = 7 then fetchLoop7 cfg rows7 else []) }

/-- `AntispoofingClassifier::operator[]`: an unguarded read of the
probability tensor at offset `2 * idx`, scaled by 100. -/
def AntispoofingClassifier.decodeAt (probBlob : List ℚ) (idx : ℤ) : Option ℚ :=
  (readF probBlob (2 * idx)).map (fun v => v * 100)

/-- `AgeGenderDetection::operator[]`: unguarded reads of the age tensor at
offset `idx` (scaled by 100) and the gender tensor at offset
`idx * 2 + 1`. -/
def AgeGenderDetection.decodeAt (ageBlob genderBlob : List ℚ) (idx : ℤ) : Option (ℚ × ℚ) :=
  match readF ageBlob idx, readF genderBlob (idx * 2 + 1) with
  | some a, some g => some (a * 100, g)
  | _, _ => none

/-- `std::map<std::string, float>` assignment `m[k] = v`: replace the
value when the key is present, otherwise add the entry. -/
def mapAssign (m : List (String × ℚ)) (k : String) (v : ℚ) : List (String × ℚ) :=
  if m.any (fun p => p.1 = k) then
    m.map (fun p => if p.1 = k then (k, v) else p)
  else m ++ [(k, v)]

/-- How `EmotionsDetection::operator[]` can fail. -/
inductive EmoError where
  | dimsAtOutOfRange
  | contractViolation
deriving DecidableEq, Repr

/-- The assignment loop of `EmotionsDetection::operator[]`:
`emotions[emotionsVec[i]] = outputIdxPos[i]` for `i = 0 .. size-1`,
where `outputIdxPos` points at row `idx` of the output tensor. -/
def buildEmotionsMap (emotionsVec : List String) (blob : List ℚ)
    (idx : ℕ) : List (String × ℚ) :=
  (List.range emotionsVec.length).foldl
    (fun m i => mapAssign m (emotionsVec.getD i "")
      (blob.getD (idx * emotionsVec.length + i) 0)) []

/-- `EmotionsDetection::operator[]`: reads the channel count from
`getDims().at(1)`, throws when it differs from the emotion-label vector's
length, else assigns `emotions[emotionsVec[i]] = row[i]` for
`i = 0 .. size-1` over row `idx` of the output tensor. -/
def EmotionsDetection.decodeAt (emotionsVec : List String) (dims : List ℕ)
    (blob : List ℚ) (idx : ℕ) : Except EmoError (List (String × ℚ)) :=
  match dims.get? 1 with
  | none => Except.error EmoError.dimsAtOutOfRange
  | some numOfChannels =>
    if numOfChannels ≠ emotionsVec.length then Except.error EmoError.contractViolation
    else Except.ok (buildEmotionsMap emotionsVec blob idx)

/-- How `FacialLandmarksDetection::read` can fail. -/
inductive LmReadError where
  | wrongInputCount
  | wrongOutputName
  | wrongOutputShape
deriving DecidableEq, Repr

/-- The validation sequence of `FacialLandmarksDetection::read`, applied
to the loaded model's input count, first output name and output tensor
dimensions. The shape test is the source's verbatim condition
`outSizeVector.size() != 2 && outSizeVector.back() != 70`. -/
def FacialLandmarksDetection.readChecks (inputCount : ℕ) (outName : String)
    (outSizeVector : List ℕ) : Except LmReadError Unit :=
  if inputCount ≠ 1 then Except.error LmReadError.wrongInputCount
  else if outName ≠ "align_fc3" then Except.error LmReadError.wrongOutputName
  else if outSizeVector.length ≠ 2 ∧ outSizeVector.getLastD 0 ≠ 70 then
    Except.error LmReadError.wrongOutputShape
  else Except.ok ()

/-- `CallStat`: per-stage latency record. Time points are rationals
supplied by the caller in place of `steady_clock::now()`. -/
structure CallStat where
  _number_of_calls : ℕ
  _total_duration : ℚ
  _last_call_duration : ℚ
  _smoothed_duration : ℚ
  _last_call_start : ℚ
deriving DecidableEq, Repr

/-- The `CallStat` constructor (`_smoothed_duration` starts at the `-1`
sentinel; the start time point is default-initialized). -/
def CallStat.init : CallStat :=
  { _number_of_calls := 0, _total_duration := 0, _last_call_duration := 0,
    _smoothed_duration := -1, _last_call_start := 0 }

/-- `CallStat::setStartTime`. -/
def CallStat.setStartTime (s : CallStat) (now : ℚ) : CallStat :=
  { s with _last_call_start := now }

/-- `CallStat::calculateDuration` at time `now`: seed the EMA with the
first observed duration, then always apply the `α = 0.1` update, and
restart the cycle at `now`. -/
def CallStat.calculateDuration (s : CallStat) (now : ℚ) : CallStat :=
  let d := now - s._last_call_start
  let seeded := if s._smoothed_duration < 0 then d else s._smoothed_duration
  let alpha : ℚ := 1 / 10
  { _number_of_calls := s._number_of_calls + 1
    _total_duration := s._total_duration + d
    _last_call_duration := d
    _smoothed_duration := seeded * (1 - alpha) + d * alpha
    _last_call_start := now }

/-- `CallStat::getSmoothedDuration` at time `now`: while the sentinel is
still negative, report elapsed time since the last start instead. -/
def CallStat.getSmoothedDuration (s : CallStat) (now : ℚ) : ℚ :=
  if s._smoothed_duration < 0 then now - s._last_call_start
  else s._smoothed_duration

/-- One timestamped `Timer` operation on a single stage name. -/
inductive TimerEvent where
  | startEv (t : ℚ)
  | finishEv (t : ℚ)
deriving DecidableEq, Repr

/-- The time stamp of an event. -/
def TimerEvent.time : TimerEvent → ℚ
  | TimerEvent.startEv t => t
  | TimerEvent.finishEv t => t

/-- Apply one event: `Timer::start` calls `setStartTime`, `Timer::finish`
calls `calculateDuration`. -/
def CallStat.applyEvent (s : CallStat) : TimerEvent → CallStat
  | TimerEvent.startEv t => s.setStartTime t
  | TimerEvent.finishEv t => s.calculateDuration t

/-- Run a sequence of timer events. -/
def CallStat.runEvents (s : CallStat) : List TimerEvent → CallStat
  | [] => s
  | e :: es => (s.applyEvent e).runEvents es

/-- Whether the event list contains a completed `finish`. -/
def hasFinish : List TimerEvent → Bool
  | [] => false
  | TimerEvent.finishEv _ :: _ => true
  | TimerEvent.startEv _ :: es => hasFinish es

/-- Time stamps are non-decreasing from a given origin (the monotone
steady clock). -/
def chronFrom : ℚ → List TimerEvent → Prop
  | _, [] => True
  | t, e :: es => t ≤ e.time ∧ chronFrom e.time es

/-- The time stamp of the last event, or the origin when there is none. -/
def endTimeFrom : ℚ → List TimerEvent → ℚ
  | t, [] => t
  | _, e :: es => endTimeFrom e.time es

/-- C4: for every raw detection box `(x, y, w, h)` (nonnegative sizes) and
nonnegative enlargement coefficient `e`, the square-and-enlarge step of
`FaceDetection::fetchResults` emits a box with
`newW = newH = e * max w h` (rounded to int) and origin
`(centerX - ⌊dx * newW / 2⌋, centerY - ⌊dy * newH / 2⌋)` where
`(centerX, centerY)` is the raw box's center. -/
theorem squareEnlarge_spec (e dx dy : ℚ) (x y w h : ℤ)
    (he : 0 ≤ e) (hw : 0 ≤ w) (hh : 0 ≤ h) :
    (squareEnlarge e dx dy x y w h).width = ⌊e * ((max w h : ℤ) : ℚ)⌋ ∧
    (squareEnlarge e dx dy x y w h).height = ⌊e * ((max w h : ℤ) : ℚ)⌋ ∧
    (squareEnlarge e dx dy x y w h).x
      = (x + w / 2) - ⌊dx * ((⌊e * ((max w h : ℤ) : ℚ)⌋ : ℤ) : ℚ) / 2⌋ ∧
    (squareEnlarge e dx dy x y w h).y
      = (y + h / 2) - ⌊dy * ((⌊e * ((max w h : ℤ) : ℚ)⌋ : ℤ) : ℚ) / 2⌋ := by
  have hm : (0:ℤ) ≤ max w h := le_trans hw (le_max_left _ _)
  have hprod : (0:ℚ) ≤ e * ((max w h : ℤ) : ℚ) :=
    mul_nonneg he (by exact_mod_cast hm)
  have hnw : ratTrunc (e * ((max w h : ℤ) : ℚ)) = ⌊e * ((max w h : ℤ) : ℚ)⌋ :=
    ratTrunc_eq_floor _ hprod
  have hwd : w.tdiv 2 = w / 2 := Int.tdiv_eq_ediv hw (by norm_num)
  have hhd : h.tdiv 2 = h / 2 := Int.tdiv_eq_ediv hh (by norm_num)
  simp only [squareEnlarge]
  rw [hnw, hwd, hhd]
  exact ⟨rfl, rfl, rfl, rfl⟩

/-- C4 witness: the spec's concrete instance — box `(0,0,100,50)` with
`e = 1.4`, `dx = dy = 1` yields the 140×140 box at `(-20, -45)`. -/
theorem squareEnlarge_spec_witness :
    squareEnlarge (7/5) 1 1 0 0 100 50
      = { x := -20, y := -45, width := 140, height := 140 } ∧
    (squareEnlarge (7/5) 1 1 0 0 100 50).width
      = ⌊(7/5 : ℚ) * ((max (100:ℤ) 50 : ℤ) : ℚ)⌋ := by
  constructor
  · norm_num [squareEnlarge, ratTrunc, Rect.mk.injEq, Int.tdiv]
  · exact (squareEnlarge_spec (7/5) 1 1 0 0 100 50 (by norm_num)
      (by norm_num) (by norm_num)).1

/-- C5: every detection either fetch loop of
`FaceDetection::fetchResults` emits has confidence strictly greater than
the configured threshold — a row with confidence exactly the threshold is
never pushed — in both the 7-wide single-tensor format and the
boxes-plus-labels format, for any raw-output-logging setting. -/
theorem fetch_confidence_strict (cfg : FaceCfg) (rows7 : List Row7)
    (rows5 : List (Row5 × ℤ)) (r : Result) :
    (r ∈ fetchLoop7 cfg rows7 → cfg.detectionThreshold < r.confidence) ∧
    (r ∈ fetchLoop5 cfg rows5 → cfg.detectionThreshold < r.confidence) := by
  constructor
  · intro hr
    induction rows7 with
    | nil => simp [fetchLoop7] at hr
    | cons row rest ih =>
      rw [fetchLoop7] at hr
      split at hr
      · simp at hr
      · split at hr
        · exact ih hr
        · rcases List.mem_append.mp hr with h1 | h2
          · split at h1
            · rcases List.mem_singleton.mp h1 with rfl
              assumption
            · simp at h1
          · exact ih h2
  · intro hr
    induction rows5 with
    | nil => simp [fetchLoop5] at hr
    | cons p rest ih =>
      rw [fetchLoop5] at hr
      split at hr
      · exact ih hr
      · rcases List.mem_append.mp hr with h1 | h2
        · split at h1
          · rcases List.mem_singleton.mp h1 with rfl
            assumption
          · simp at h1
        · exact ih h2

/-- A concrete configuration for witnesses: threshold 1/2, raw output
off, degenerate geometry so all boxes decode to zero. -/
def witnessCfg : FaceCfg :=
  { detectionThreshold := 1/2, doRawOutputMessages := false,
    width := 0, height := 0, network_input_width := 1,
    network_input_height := 1, bb_enlarge_coefficient := 0,
    bb_dx_coefficient := 0, bb_dy_coefficient := 0,
    objectSize := 7, labelsOutputEmpty := true }

/-- A concrete 7-wide row with confidence 3/4, above the 1/2 threshold. -/
def witnessRow7 : Row7 :=
  { imageId := 0, label := 1, conf := 3/4, x0 := 0, y0 := 0, x1 := 0, y1 := 0 }

/-- C5 witness: the decoded form of `witnessRow7` is emitted by the
7-wide loop and its confidence exceeds the threshold. -/
theorem fetch_confidence_strict_witness :
    witnessCfg.detectionThreshold < (decodeRow7 witnessCfg witnessRow7).confidence :=
  (fetch_confidence_strict witnessCfg [witnessRow7] [] (decodeRow7 witnessCfg witnessRow7)).1
    (by norm_num [fetchLoop7, witnessCfg, witnessRow7])

/-- C2: the shape test of `FacialLandmarksDetection::read` joins its two
conditions with `&&`, so it rejects an output tensor only when the rank
differs from 2 AND the last dimension differs from 70: rank 3 with last
dimension 70 passes, and rank 2 with last dimension 69 passes; only a
tensor failing both (here `[3, 5, 9]`) is rejected. -/
theorem landmarks_shape_check_accepts_bad_shapes :
    FacialLandmarksDetection.readChecks 1 "align_fc3" [1, 1, 70] = Except.ok () ∧
    FacialLandmarksDetection.readChecks 1 "align_fc3" [1, 69] = Except.ok () ∧
    FacialLandmarksDetection.readChecks 1 "align_fc3" [3, 5, 9]
      = Except.error LmReadError.wrongOutputShape := by
  refine ⟨?_, ?_, ?_⟩ <;> rfl

lemma calculateDuration_smoothed (s : CallStat) (now : ℚ) :
    (s.calculateDuration now)._smoothed_duration =
      (if s._smoothed_duration < 0 then now - s._last_call_start
        else s._smoothed_duration) * (9/10) + (now - s._last_call_start) * (1/10) := by
  simp only [CallStat.calculateDuration]
  norm_num

lemma calculateDuration_start (s : CallStat) (now : ℚ) :
    (s.calculateDuration now)._last_call_start = now := rfl

/-- C6: seeded exponential smoothing — after `start` at `t0`, the first
`finish` at `t1` leaves the smoothed duration exactly the first raw
duration `t1 - t0`; a second `finish` at `t2` leaves exactly
`0.9 * d1 + 0.1 * d2` with `d2 = t2 - t1`. -/
theorem callstat_ema_first_two (t0 t1 t2 : ℚ) (h01 : t0 ≤ t1) :
    ((CallStat.init.setStartTime t0).calculateDuration t1)._smoothed_duration
      = t1 - t0 ∧
    (((CallStat.init.setStartTime t0).calculateDuration t1).calculateDuration
        t2)._smoothed_duration
      = (9/10) * (t1 - t0) + (1/10) * (t2 - t1) := by
  have h1 : ((CallStat.init.setStartTime t0).calculateDuration t1)._smoothed_duration
      = t1 - t0 := by
    rw [calculateDuration_smoothed]
    simp [CallStat.init, CallStat.setStartTime]
    ring
  refine ⟨h1, ?_⟩
  rw [calculateDuration_smoothed, h1, calculateDuration_start]
  rw [if_neg (by simp [CallStat.init, CallStat.setStartTime]; linarith)]
  ring

/-- C6 witness: with `t0 = 0`, `t1 = 10`, `t2 = 14`, the first finish
stores 10 and the second stores `0.9 * 10 + 0.1 * 4`. -/
theorem callstat_ema_first_two_witness :
    ((CallStat.init.setStartTime 0).calculateDuration 10)._smoothed_duration = 10 - 0 ∧
    (((CallStat.init.setStartTime 0).calculateDuration 10).calculateDuration
        14)._smoothed_duration = (9/10) * (10 - 0) + (1/10) * (14 - 10) :=
  callstat_ema_first_two 0 10 14 (by norm_num)

lemma checkEnabled_enquedFaces (s : SecondaryStage) :
    (s.checkEnabled).2.enquedFaces = s.enquedFaces := by
  unfold SecondaryStage.checkEnabled
  split <;> rfl

lemma checkEnabled_maxBatch (s : SecondaryStage) :
    (s.checkEnabled).2.maxBatch = s.maxBatch := by
  unfold SecondaryStage.checkEnabled
  split <;> rfl

lemma enqueue_step (s : SecondaryStage) :
    (s.enqueue).1.maxBatch = s.maxBatch ∧
    ((s.enqueue).1.enquedFaces = s.enquedFaces ∨
      (s.enquedFaces ≠ s.maxBatch ∧ (s.enqueue).1.enquedFaces = s.enquedFaces + 1)) := by
  unfold SecondaryStage.enqueue SecondaryStage.checkEnabled
  by_cases hc : s.enablingChecked <;> simp [hc] <;> split_ifs <;> simp_all

/-- `n` successive `enqueue` calls on a secondary stage. -/
def enqueueIter : ℕ → SecondaryStage → SecondaryStage
  | 0, s => s
  | n + 1, s => enqueueIter n (s.enqueue).1

lemma enqueueIter_le (n : ℕ) (s : SecondaryStage)
    (h : s.enquedFaces ≤ s.maxBatch) :
    (enqueueIter n s).enquedFaces ≤ (enqueueIter n s).maxBatch ∧
    (enqueueIter n s).maxBatch = s.maxBatch := by
  induction n generalizing s with
  | zero => exact ⟨h, rfl⟩
  | succ n ih =>
    obtain ⟨hmax, hcount⟩ := enqueue_step s
    have hle : (s.enqueue).1.enquedFaces ≤ (s.enqueue).1.maxBatch := by
      rcases hcount with hsame | ⟨hne, hinc⟩
      · omega
      · have : s.enquedFaces < s.maxBatch := lt_of_le_of_ne h hne
        omega
    have := ih (s.enqueue).1 hle
    rw [enqueueIter]
    exact ⟨this.1, this.2.trans hmax⟩

/-- C8: enqueueing into a secondary stage whose enqueued count already
equals `maxBatch` leaves the count unchanged (the call only warns and
drops the input), and under any number of successive `enqueue` calls the
count never exceeds `maxBatch`. -/
theorem enqueue_capacity (s : SecondaryStage) (n : ℕ)
    (h : s.enquedFaces ≤ s.maxBatch) :
    (s.enquedFaces = s.maxBatch → (s.enqueue).1.enquedFaces = s.enquedFaces) ∧
    (enqueueIter n s).enquedFaces ≤ s.maxBatch := by
  constructor
  · intro heq
    rcases (enqueue_step s).2 with hsame | ⟨hne, _⟩
    · exact hsame
    · exact absurd heq hne
  · have := enqueueIter_le n s h
    omega

/-- C8 witness: a fresh stage with `maxBatch = 16` driven by 17 enqueue
calls stays at a count of at most 16, and an enqueue at capacity is a
no-op on the count. -/
theorem enqueue_capacity_witness :
    ((mkSecondary "model.xml" 16 false false).enquedFaces
        = (mkSecondary "model.xml" 16 false false).maxBatch →
      ((mkSecondary "model.xml" 16 false false).enqueue).1.enquedFaces
        = (mkSecondary "model.xml" 16 false false).enquedFaces) ∧
    (enqueueIter 17 (mkSecondary "model.xml" 16 false false)).enquedFaces ≤ 16 :=
  enqueue_capacity (mkSecondary "model.xml" 16 false false) 17 (by decide)

lemma readF_eq_of_lt (blob : List ℚ) (i : ℤ) (h0 : 0 ≤ i)
    (hlt : i.toNat < blob.length) :
    readF blob i = some (blob.get ⟨i.toNat, hlt⟩) := by
  simp [readF, if_pos h0, List.get?_eq_get hlt]

/-- A concrete probability/age/gender tensor allocation: room for a
`maxBatch` of 6 two-channel rows, written by a submit of batch size 1. -/
def demoBlob : List ℚ :=
  [1/10, 2/10, 3/10, 4/10, 5/10, 6/10, 7/10, 8/10, 9/10, 1, 11/10, 12/10]

/-- C1 counterexample: with a last submitted batch of 1, index 5 lies
outside `[0, 1)`, yet `AntispoofingClassifier::operator[]` returns a
value read from tensor offset `2*5 = 10` (and `AgeGenderDetection`
likewise from offsets 5 and 11) — no `IndexOutOfRange` failure exists in
the code. -/
theorem decode_unchecked_counterexample :
    AntispoofingClassifier.decodeAt demoBlob 5 = some 110 ∧
    AgeGenderDetection.decodeAt demoBlob demoBlob 5 = some (60, 12/10) := by
  constructor <;>
    norm_num [AntispoofingClassifier.decodeAt, AgeGenderDetection.decodeAt,
      readF, demoBlob, List.get?]

/-- C1 (amended): the secondary-stage decoders keep no record of the last
submitted batch size and perform no bounds check against it: for any
index at or beyond the last submitted batch whose computed offsets still
lie inside the backend's allocation, both decoders succeed, reading
whatever the tensor holds there. -/
theorem decode_unchecked (probBlob ageBlob genderBlob : List ℚ)
    (lastBatch idx : ℤ) (houtside : lastBatch ≤ idx) (h0 : 0 ≤ idx)
    (hprob : (2 * idx).toNat < probBlob.length)
    (hage : idx.toNat < ageBlob.length)
    (hgen : (idx * 2 + 1).toNat < genderBlob.length) :
    (AntispoofingClassifier.decodeAt probBlob idx).isSome = true ∧
    (AgeGenderDetection.decodeAt ageBlob genderBlob idx).isSome = true := by
  constructor
  · rw [AntispoofingClassifier.decodeAt,
      readF_eq_of_lt probBlob (2 * idx) (by omega) hprob]
    rfl
  · rw [AgeGenderDetection.decodeAt,
      readF_eq_of_lt ageBlob idx h0 hage,
      readF_eq_of_lt genderBlob (idx * 2 + 1) (by omega) hgen]
    rfl

/-- C1 witness: the amended statement at the counterexample's input. -/
theorem decode_unchecked_witness :
    (AntispoofingClassifier.decodeAt demoBlob 5).isSome = true ∧
    (AgeGenderDetection.decodeAt demoBlob demoBlob 5).isSome = true :=
  decode_unchecked demoBlob demoBlob demoBlob 1 5 (by decide) (by decide)
    (by decide) (by decide) (by decide)

/-- A disabled stage: empty model path, nothing cached yet, no request,
empty batch. -/
def DisabledInert (s : SecondaryStage) : Prop :=
  s.pathToModel = "" ∧ s._enabled = false ∧ s.hasRequest = false ∧
    s.enquedFaces = 0

lemma checkEnabled_disabled (s : SecondaryStage) (h : DisabledInert s) :
    (s.checkEnabled).1 = false ∧ DisabledInert (s.checkEnabled).2 := by
  obtain ⟨hp, he, hr, hq⟩ := h
  unfold SecondaryStage.checkEnabled
  by_cases hc : s.enablingChecked <;> simp_all [DisabledInert]

lemma applyOp_disabled (s : SecondaryStage) (op : StageOp)
    (h : DisabledInert s) :
    DisabledInert (s.applyOp op).1 ∧ (s.applyOp op).2 = [] := by
  obtain ⟨hce, hP⟩ := checkEnabled_disabled s h
  cases op
  case loadOp =>
    unfold SecondaryStage.applyOp SecondaryStage.loadInto
    simp [hce, hP]
  case enqueueOp =>
    unfold SecondaryStage.applyOp SecondaryStage.enqueue
    simp [hce, hP]
  case submitOp =>
    unfold SecondaryStage.applyOp SecondaryStage.submitRequest
    simp [h.2.2.2, h]
  case waitOp =>
    unfold SecondaryStage.applyOp SecondaryStage.waitDone
    simp [hce, hP]

lemma runOps_disabled (s : SecondaryStage) (ops : List StageOp)
    (h : DisabledInert s) :
    DisabledInert (s.runOps ops).1 ∧ (s.runOps ops).2 = [] := by
  induction ops generalizing s with
  | nil => exact ⟨h, rfl⟩
  | cons op ops ih =>
    obtain ⟨h1, hc1⟩ := applyOp_disabled s op h
    obtain ⟨h2, hc2⟩ := ih (s.applyOp op).1 h1
    rw [SecondaryStage.runOps]
    exact ⟨h2, by simp [hc1, hc2]⟩

/-- C3 counterexample: on a disabled stage (empty model path), decode
(`operator[]`) is not a guarded no-op: it has no `enabled()` check and
dereferences the null `request` handle. -/
theorem disabled_decode_not_noop :
    (mkSecondary "" 16 false false).decodeAccess
      = DecodeOutcome.nullRequestFault ∧
    DecodeOutcome.nullRequestFault ≠ DecodeOutcome.reads [] := by
  exact ⟨rfl, by decide⟩

/-- C3 (amended): a stage configured with an empty model path is
permanently inert for load, enqueue, submit and wait — any sequence of
those operations makes zero backend calls — but decode after any such
sequence still dereferences the null request handle (a fault, not a
guarded no-op). -/
theorem disabled_stage_inert (maxB : ℤ) (dyn async : Bool)
    (ops : List StageOp) :
    ((mkSecondary "" maxB dyn async).runOps ops).2 = [] ∧
    ((mkSecondary "" maxB dyn async).runOps ops).1.decodeAccess
      = DecodeOutcome.nullRequestFault := by
  have hinit : DisabledInert (mkSecondary "" maxB dyn async) :=
    ⟨rfl, rfl, rfl, rfl⟩
  obtain ⟨hP, hcalls⟩ := runOps_disabled _ ops hinit
  refine ⟨hcalls, ?_⟩
  unfold SecondaryStage.decodeAccess
  simp [hP.2.2.1]

lemma applyEvent_start (s : CallStat) (e : TimerEvent) :
    (s.applyEvent e)._last_call_start = e.time := by
  cases e <;> rfl

lemma runEvents_invariant (es : List TimerEvent) (t0 : ℚ) (s : CallStat)
    (hchron : chronFrom t0 es) (hstart : s._last_call_start = t0) :
    (s.runEvents es)._last_call_start = endTimeFrom t0 es ∧
    (hasFinish es = false →
      (s.runEvents es)._smoothed_duration = s._smoothed_duration) ∧
    (0 ≤ s._smoothed_duration → 0 ≤ (s.runEvents es)._smoothed_duration) ∧
    (hasFinish es = true → 0 ≤ (s.runEvents es)._smoothed_duration) := by
  induction es generalizing t0 s with
  | nil =>
    refine ⟨hstart, fun _ => rfl, fun h => h, fun h => ?_⟩
    simp [hasFinish] at h
  | cons e es ih =>
    obtain ⟨hle, hch⟩ := hchron
    have hrun : s.runEvents (e :: es) = (s.applyEvent e).runEvents es := rfl
    have hmain := ih e.time (s.applyEvent e) hch (applyEvent_start s e)
    cases e with
    | startEv t =>
      have hsm : (s.applyEvent (TimerEvent.startEv t))._smoothed_duration
          = s._smoothed_duration := rfl
      refine ⟨hrun ▸ hmain.1, ?_, ?_, ?_⟩
      · intro hf
        rw [hasFinish] at hf
        rw [hrun, hmain.2.1 hf, hsm]
      · intro hpos
        rw [hrun]
        exact hmain.2.2.1 (hsm ▸ hpos)
      · intro hf
        rw [hasFinish] at hf
        rw [hrun]
        exact hmain.2.2.2 hf
    | finishEv t =>
      have hd : 0 ≤ t - s._last_call_start := by
        rw [hstart]
        simpa [TimerEvent.time] using hle
      have hsm : 0 ≤ (s.applyEvent (TimerEvent.finishEv t))._smoothed_duration := by
        show 0 ≤ (s.calculateDuration t)._smoothed_duration
        rw [calculateDuration_smoothed]
        split
        · nlinarith
        · rename_i hnl
          have : 0 ≤ s._smoothed_duration := le_of_not_lt hnl
          nlinarith
      refine ⟨hrun ▸ hmain.1, ?_, ?_, ?_⟩
      · intro hf
        rw [hasFinish] at hf
        exact absurd hf (by simp)
      · intro _
        rw [hrun]
        exact hmain.2.2.1 hsm
      · intro _
        rw [hrun]
        exact hmain.2.2.1 hsm

/-- C9: for a latency record on which `start` has run at `t0` and a
sequence of further well-timed start/finish events followed, queried at a
time `now` no earlier than the last event: while no `finish` has
completed, `getSmoothedDuration` returns the elapsed time since the last
start (a non-negative live estimate); once at least one `finish` has
completed it returns the stored EMA value, which is non-negative. -/
theorem smoothedDuration_live_then_ema (t0 now : ℚ) (es : List TimerEvent)
    (hchron : chronFrom t0 es) (hnow : endTimeFrom t0 es ≤ now) :
    (hasFinish es = false →
      ((CallStat.init.setStartTime t0).runEvents es).getSmoothedDuration now
          = now - ((CallStat.init.setStartTime t0).runEvents es)._last_call_start ∧
        0 ≤ ((CallStat.init.setStartTime t0).runEvents es).getSmoothedDuration now) ∧
    (hasFinish es = true →
      ((CallStat.init.setStartTime t0).runEvents es).getSmoothedDuration now
          = ((CallStat.init.setStartTime t0).runEvents es)._smoothed_duration ∧
        0 ≤ ((CallStat.init.setStartTime t0).runEvents es)._smoothed_duration) := by
  have hinv := runEvents_invariant es t0 (CallStat.init.setStartTime t0) hchron rfl
  constructor
  · intro hf
    have hsm : ((CallStat.init.setStartTime t0).runEvents es)._smoothed_duration
        = -1 := hinv.2.1 hf
    have hlive : ((CallStat.init.setStartTime t0).runEvents es).getSmoothedDuration now
        = now - ((CallStat.init.setStartTime t0).runEvents es)._last_call_start := by
      rw [CallStat.getSmoothedDuration, if_pos (by rw [hsm]; norm_num)]
    refine ⟨hlive, ?_⟩
    rw [hlive, hinv.1]
    linarith
  · intro hf
    have hsm := hinv.2.2.2 hf
    rw [CallStat.getSmoothedDuration, if_neg (not_lt.mpr hsm)]
    exact ⟨rfl, hsm⟩

/-- C9 witness: one completed start/finish pair (start at 0, finish at
2), queried at time 5: the EMA value is returned and is non-negative. -/
theorem smoothedDuration_live_then_ema_witness :
    ((CallStat.init.setStartTime 0).runEvents
        [TimerEvent.finishEv 2]).getSmoothedDuration 5
      = ((CallStat.init.setStartTime 0).runEvents
        [TimerEvent.finishEv 2])._smoothed_duration ∧
    0 ≤ ((CallStat.init.setStartTime 0).runEvents
        [TimerEvent.finishEv 2])._smoothed_duration :=
  (smoothedDuration_live_then_ema 0 5 [TimerEvent.finishEv 2]
    (by norm_num [chronFrom, TimerEvent.time])
    (by norm_num [endTimeFrom, TimerEvent.time])).2 rfl

lemma mapAssign_fresh (m : List (String × ℚ)) (k : String) (v : ℚ)
    (h : ∀ p ∈ m, p.1 ≠ k) : mapAssign m k v = m ++ [(k, v)] := by
  rw [mapAssign, if_neg]
  simp only [List.any_eq_true, decide_eq_true_eq, not_exists]
  intro p hp
  exact h p hp.1 hp.2

lemma getD_ne_of_nodup (l : List String) (i j : ℕ) (hij : i < j)
    (hj : j < l.length) (hnd : l.Nodup) :
    l.getD i "" ≠ l.getD j "" := by
  have hi : i < l.length := lt_trans hij hj
  rw [List.getD_eq_getElem _ _ hi, List.getD_eq_getElem _ _ hj]
  intro h
  have := (hnd.getElem_inj_iff).mp h
  omega

lemma buildPrefix (labels : List String) (f : ℕ → ℚ) (hnd : labels.Nodup)
    (j : ℕ) (hj : j ≤ labels.length) :
    (List.range j).foldl (fun m i => mapAssign m (labels.getD i "") (f i)) []
      = (List.range j).map (fun i => (labels.getD i "", f i)) := by
  induction j with
  | zero => rfl
  | succ j ih =>
    rw [List.range_succ, List.foldl_append, List.map_append,
      ih (Nat.le_of_succ_le hj)]
    simp only [List.foldl_cons, List.foldl_nil, List.map_cons, List.map_nil]
    rw [mapAssign_fresh]
    intro p hp
    rw [List.mem_map] at hp
    obtain ⟨i, hi, rfl⟩ := hp
    rw [List.mem_range] at hi
    exact getD_ne_of_nodup labels i j hi hj hnd

lemma range_map_getD (l : List String) :
    (List.range l.length).map (fun i => l.getD i "") = l := by
  apply List.ext_getElem
  · simp
  · intro n h1 h2
    rw [List.getElem_map, List.getElem_range, List.getD_eq_getElem _ _ h2]

lemma buildEmotionsMap_eq (labels : List String) (blob : List ℚ) (idx : ℕ)
    (hnd : labels.Nodup) :
    buildEmotionsMap labels blob idx
      = (List.range labels.length).map
          (fun i => (labels.getD i "", blob.getD (idx * labels.length + i) 0)) :=
  buildPrefix labels _ hnd labels.length le_rfl

/-- C7: with a 7-entry emotion-label vector (distinct labels, as the
fixed label set is), `EmotionsDetection::operator[]` fails with the
shape-mismatch error exactly when the output tensor's channel dimension
differs from 7; when it equals 7 the decode returns the 7 labels paired
in order with the 7 values of tensor row `idx`, so the mapping has
exactly 7 entries, its keys are exactly the label vector, and its values
are copied verbatim. -/
theorem emotions_decode_contract (emotionsVec : List String) (dims : List ℕ)
    (blob : List ℚ) (idx c : ℕ)
    (hlen : emotionsVec.length = 7) (hnd : emotionsVec.Nodup)
    (hdims : dims.get? 1 = some c) :
    (EmotionsDetection.decodeAt emotionsVec dims blob idx
        = Except.error EmoError.contractViolation ↔ c ≠ 7) ∧
    (c = 7 →
      EmotionsDetection.decodeAt emotionsVec dims blob idx
          = Except.ok ((List.range 7).map
              (fun i => (emotionsVec.getD i "", blob.getD (idx * 7 + i) 0))) ∧
        ((List.range 7).map
            (fun i => (emotionsVec.getD i "", blob.getD (idx * 7 + i) 0))).length = 7 ∧
        ((List.range 7).map
            (fun i => (emotionsVec.getD i "", blob.getD (idx * 7 + i) 0))).map Prod.fst
          = emotionsVec) := by
  have hok : c = 7 →
      EmotionsDetection.decodeAt emotionsVec dims blob idx
        = Except.ok ((List.range 7).map
            (fun i => (emotionsVec.getD i "", blob.getD (idx * 7 + i) 0))) := by
    intro hc
    unfold EmotionsDetection.decodeAt
    rw [hdims]
    simp only [hlen, hc, ne_eq, not_true_eq_false, if_false, ite_false]
    rw [buildEmotionsMap_eq emotionsVec blob idx hnd, hlen]
  constructor
  · constructor
    · intro herr
      intro hc
      rw [hok hc] at herr
      exact absurd herr (by simp)
    · intro hc
      unfold EmotionsDetection.decodeAt
      rw [hdims]
      simp only [hlen]
      rw [if_pos hc]
  · intro hc
    refine ⟨hok hc, by simp, ?_⟩
    rw [List.map_map]
    have : (Prod.fst ∘ fun i => (emotionsVec.getD i "", blob.getD (idx * 7 + i) 0))
        = fun i => emotionsVec.getD i "" := rfl
    rw [this, ← hlen, range_map_getD]

/-- The program's fixed emotion label vector, extended to the 7-label
variant the claim describes. -/
def emotionLabels : List String :=
  ["neutral", "happy", "sad", "surprise", "anger", "fear", "disgust"]

/-- C7 witness: the contract at a concrete channel dimension of 7. -/
theorem emotions_decode_contract_witness :
    (EmotionsDetection.decodeAt emotionLabels [1, 7] demoBlob 0
        = Except.error EmoError.contractViolation ↔ (7 : ℕ) ≠ 7) ∧
    ((7 : ℕ) = 7 →
      EmotionsDetection.decodeAt emotionLabels [1, 7] demoBlob 0
          = Except.ok ((List.range 7).map
              (fun i => (emotionLabels.getD i "", demoBlob.getD (0 * 7 + i) 0))) ∧
        ((List.range 7).map
            (fun i => (emotionLabels.getD i "", demoBlob.getD (0 * 7 + i) 0))).length = 7 ∧
        ((List.range 7).map
            (fun i => (emotionLabels.getD i "", demoBlob.getD (0 * 7 + i) 0))).map Prod.fst
          = emotionLabels) :=
  emotions_decode_contract emotionLabels [1, 7] demoBlob 0 7 rfl
    (by decide) rfl

/-- C10: on an enabled primary detector holding a submitted frame, the
first `fetchResults` after `submitRequest` fills the results list from
the output tensor, but a second `fetchResults` first clears the list and
then returns early on the already-fetched flag — fetching twice leaves
the results list empty, so `fetchResults` is not idempotent. -/
theorem fetchResults_not_idempotent (cfg : FaceCfg) (rows5 : List (Row5 × ℤ))
    (rows7 : List Row7) (s : FaceState)
    (hchecked : s.enablingChecked = true) (hen : s._enabled = true)
    (hreq : s.hasRequest = true) (hq : ¬ s.enquedFrames = 0) :
    ((s.submitRequest).1.fetchResults cfg rows5 rows7).results
      = (if cfg.labelsOutputEmpty = false ∧ cfg.objectSize = 5 then
          fetchLoop5 cfg rows5 else [])
        ++ (if cfg.objectSize = 7 then fetchLoop7 cfg rows7 else []) ∧
    ((s.submitRequest).1.fetchResults cfg rows5 rows7).resultsFetched = true ∧
    (((s.submitRequest).1.fetchResults cfg rows5 rows7).fetchResults
        cfg rows5 rows7).results = [] ∧
    (((s.submitRequest).1.fetchResults cfg rows5 rows7).fetchResults
        cfg rows5 rows7).resultsFetched = true := by
  unfold FaceState.submitRequest FaceState.fetchResults FaceState.checkEnabled
  simp [hchecked, hen, hreq, hq]

/-- A concrete primary-detector state: enabled, request allocated, one
frame enqueued. -/
def witnessFace : FaceState :=
  { pathToModel := "face-detection.xml", isAsync := false,
    enablingChecked := true, _enabled := true, hasRequest := true,
    enquedFrames := 1, resultsFetched := true, results := [] }

/-- C10 witness: submit then fetch twice on a concrete state; the first
fetch yields the decoded row, the second leaves the list empty. -/
theorem fetchResults_not_idempotent_witness :
    ((witnessFace.submitRequest).1.fetchResults witnessCfg [] [witnessRow7]).results
      = (if witnessCfg.labelsOutputEmpty = false ∧ witnessCfg.objectSize = 5 then
          fetchLoop5 witnessCfg [] else [])
        ++ (if witnessCfg.objectSize = 7 then fetchLoop7 witnessCfg [witnessRow7] else []) ∧
    ((witnessFace.submitRequest).1.fetchResults witnessCfg [] [witnessRow7]).resultsFetched
      = true ∧
    (((witnessFace.submitRequest).1.fetchResults witnessCfg [] [witnessRow7]).fetchResults
        witnessCfg [] [witnessRow7]).results = [] ∧
    (((witnessFace.submitRequest).1.fetchResults witnessCfg [] [witnessRow7]).fetchResults
        witnessCfg [] [witnessRow7]).resultsFetched = true :=
  fetchResults_not_idempotent witnessCfg [] [witnessRow7] witnessFace rfl rfl rfl
    (by decide)
